import Mathlib

/-!
Shallow embedding of the post approval and publishing workflow of the
doors22 backend: the `ApprovalService` (approvePost, rejectPost, editPost,
getApprovedPosts), the posting module (`run`, `postImmediately`), the Meta
publisher fan-out (`postToBothPlatforms`) and the auto-reply sweep.

External collaborators (Firestore, the Meta Graph API, the AI engine) are
modelled as explicit parameters: the document store is a single optional
document (for per-document operations) or a list of documents (for queries),
and the outcome of each network call is an oracle argument.  Clock reads
(`new Date()`) are a single `UTCTime` argument.
-/

namespace Doors22

/-- A UTC instant, decomposed the way the JS code manipulates it
(`getUTCHours`, `setUTCHours`, `setDate`): a day counter plus
hour/minute/second/millisecond within the day. -/
structure UTCTime where
  day : Nat
  hour : Nat
  minute : Nat
  second : Nat
  ms : Nat
  deriving DecidableEq, Repr

/-- Linearisation of a `UTCTime`, used for the chronological order that
Firestore range queries and `orderBy` impose on ISO-8601 timestamps. -/
def UTCTime.toMs (t : UTCTime) : Nat :=
  t.ms + 1000 * (t.second + 60 * (t.minute + 60 * (t.hour + 24 * t.day)))

/-- The post status values stored in the `status` field. -/
inductive Status
  | pending
  | approved
  | rejected
  | posted
  deriving DecidableEq, Repr

/-- The string stored in Firestore for each status (used in error messages). -/
def Status.name : Status → String
  | .pending => "pending"
  | .approved => "approved"
  | .rejected => "rejected"
  | .posted => "posted"

/-- A JSON-ish field value, as stored in the content fields of a post
(caption and cta are strings, hashtags is a list of strings). -/
inductive JVal
  | str (s : String)
  | num (n : Int)
  | arr (xs : List String)
  | boolean (b : Bool)
  deriving DecidableEq, Repr

/-- Is the value an array? -/
def JVal.isArr : JVal → Bool
  | .arr _ => true
  | _ => false

/-- JS strict inequality `a !== b` between a value read from the stored
document and a value taken from the request body.  For primitives it is
value inequality; for arrays it is reference inequality, and the two
sides always come from different objects (`doc.data()` versus the request
payload), so an array value compares unequal even to a structurally
identical array. -/
def jsNeqB (a b : JVal) : Bool :=
  a.isArr || b.isArr || decide (a ≠ b)

/-- One entry of `approvalHistory`: `{action, by, at, previousStatus, ...}`.
`reason` is only present on rejections, `editedFields` only on edits. -/
structure HistEntry where
  action : String
  by_ : String
  at_ : UTCTime
  previousStatus : Status
  reason : Option String := none
  editedFields : List String := []
  deriving DecidableEq, Repr

/-- One entry of `editHistory`:
`{field, oldValue, newValue, editedBy, editedAt}`. -/
structure EditEntry where
  field : String
  oldValue : JVal
  newValue : JVal
  editedBy : String
  editedAt : UTCTime
  deriving DecidableEq, Repr

/-- One element of the `errors` array built by `postToBothPlatforms`:
`{platform, error}`. -/
structure PlatErr where
  platform : String
  error : String
  deriving DecidableEq, Repr

/-- The per-platform result object returned by the publisher adapter
(opaque from the point of view of the workflow; a platform post identifier). -/
abbrev PlatRes := String

/-- The `platforms` map written when a post is published:
`{instagram: result-or-null, facebook: result-or-null}`. -/
structure Platforms where
  instagram : Option PlatRes
  facebook : Option PlatRes
  deriving DecidableEq, Repr

/-- A post document.  Content fields (caption, hashtags, cta, ...) are an
association list so that `editPost` can diff arbitrary field updates the
way `postData[field]` does; workflow fields are explicit. -/
structure Post where
  id : String
  status : Status
  fields : List (String × JVal)
  scheduledPostTime : Option UTCTime := none
  approvalHistory : List HistEntry := []
  editHistory : List EditEntry := []
  approvedBy : Option String := none
  approvedAt : Option UTCTime := none
  rejectedBy : Option String := none
  rejectedAt : Option UTCTime := none
  rejectionReason : Option String := none
  postedAt : Option UTCTime := none
  platforms : Option Platforms := none
  postingErrors : Option (List PlatErr) := none
  deriving DecidableEq, Repr

/-- `postData[field]`: `none` models JS `undefined` (field absent). -/
def lookupField (fields : List (String × JVal)) (f : String) : Option JVal :=
  match fields.find? (fun kv => kv.1 = f) with
  | some kv => some kv.2
  | none => none

/-- Apply one field update, replacing the value if the key is present and
appending it otherwise (the effect of spreading `...updates` into the
document update). -/
def setField (fields : List (String × JVal)) (f : String) (v : JVal) :
    List (String × JVal) :=
  if fields.any (fun kv => kv.1 = f) then
    fields.map (fun kv => if kv.1 = f then (f, v) else kv)
  else
    fields ++ [(f, v)]

/-- Apply every update of an update map to the content fields. -/
def applyUpdates (fields : List (String × JVal))
    (updates : List (String × JVal)) : List (String × JVal) :=
  updates.foldl (fun acc kv => setField acc kv.1 kv.2) fields

/-! ## Meta service: `postToBothPlatforms` -/

/-- Outcome of one publisher-adapter call (`postToInstagram`,
`postReelToInstagram`, `postToFacebook`): either a result object or a
thrown error with a message. -/
inductive CallResult
  | ok (r : PlatRes)
  | err (msg : String)
  deriving DecidableEq, Repr

/-- The record returned by `MetaService.postToBothPlatforms`.
`mixedSuccess` models the partial-success flag of the source. -/
structure BothResults where
  instagram : Option PlatRes
  facebook : Option PlatRes
  errors : List PlatErr
  success : Bool
  mixedSuccess : Bool
  deriving DecidableEq, Repr

/-- `MetaService.postToBothPlatforms`: try Instagram, catching its error,
then Facebook, catching its error; `success` iff at least one platform
result is non-null, `partialSuccess` iff there are errors and success. -/
def postToBothPlatforms (ig fb : CallResult) : BothResults :=
  let instagramRes : Option PlatRes :=
    match ig with
    | .ok r => some r
    | .err _ => none
  let fbRes : Option PlatRes :=
    match fb with
    | .ok r => some r
    | .err _ => none
  let errs : List PlatErr :=
    (match ig with
      | .ok _ => []
      | .err m => [⟨"instagram", m⟩]) ++
    (match fb with
      | .ok _ => []
      | .err m => [⟨"facebook", m⟩])
  let success := instagramRes.isSome || fbRes.isSome
  { instagram := instagramRes
    facebook := fbRes
    errors := errs
    success := success
    mixedSuccess := (decide (errs ≠ [])) && success }

/-! ## Posting module: `postImmediately` -/

/-- The value returned by `postImmediately`: `{success}` on success,
`{success: false, errors}` when every platform failed,
`{success: false, error}` when an exception was caught. -/
structure ImmRes where
  success : Bool
  error : Option String := none
  errors : Option (List PlatErr) := none
  deriving DecidableEq, Repr

/-- `posting.postImmediately(post)`: throws (and self-catches) when the Meta
API is not configured; otherwise fans out to both platforms and, when at
least one succeeded, updates the document to `posted` with the platform
results, `postedAt` and `postingErrors`; on total failure the document is
left untouched.  Returns the result value and the stored document after
the call. -/
def postImmediately (now : UTCTime) (configured : Bool) (ig fb : CallResult)
    (post : Post) : ImmRes × Post :=
  if configured then
    let r := postToBothPlatforms ig fb
    if r.success then
      let updated : Post :=
        { post with
          status := .posted
          postedAt := some now
          platforms := some ⟨r.instagram, r.facebook⟩
          postingErrors := if r.errors.length > 0 then some r.errors else none }
      ({ success := true }, updated)
    else
      ({ success := false, errors := some r.errors }, post)
  else
    ({ success := false, error := some "Meta API not configured" }, post)

/-! ## Approval service -/

/-- The error taxonomy of the approval operations, classifying the thrown
`Error` messages. -/
inductive ApprovalErr
  | notFound (msg : String)
  | invalidState (msg : String)
  | invalidArgument (msg : String)
  deriving DecidableEq, Repr

/-- The annotation attached to a successful approval response when
publishing did not happen: either an exception message (`postResult.error`)
or the per-platform error list (`postResult.errors`). -/
inductive ErrVal
  | msg (s : String)
  | errs (l : List PlatErr)
  deriving DecidableEq, Repr

/-- The success value of `approvePost` / `editPost`:
`{success: true, ...post, immediatePost, postingError?}`. -/
structure ApproveOk where
  success : Bool
  post : Post
  immediatePost : Bool
  postingError : Option ErrVal := none
  deriving DecidableEq, Repr

/-- The success value of `rejectPost`: `{success: true, ...post}`. -/
structure RejectOk where
  success : Bool
  post : Post
  deriving DecidableEq, Repr

/-- The `approvalData` argument of `approvePost`. -/
structure ApprovalData where
  approvedBy : Option String := none
  scheduledPostTime : Option UTCTime := none
  deriving DecidableEq, Repr

/-- The `rejectionData` argument of `rejectPost`. -/
structure RejectData where
  rejectedBy : Option String := none
  reason : Option String := none
  deriving DecidableEq, Repr

/-- The `editData` argument of `editPost`. -/
structure EditData where
  editedBy : Option String := none
  updates : List (String × JVal) := []
  deriving DecidableEq, Repr

/-- Behaviour of the immediate-publish step as observed by
`approvePost`/`editPost`: either `posting.postImmediately` runs (with the
given adapter configuration and platform outcomes) or the call itself
throws. -/
inductive StepBehavior
  | runs (configured : Bool) (ig fb : CallResult)
  | throws (msg : String)
  deriving DecidableEq, Repr

/-- The default schedule computed when no `scheduledPostTime` exists:
17:00 UTC today, pushed to tomorrow when the current UTC hour is ≥ 17. -/
def defaultScheduledTime (now : UTCTime) : UTCTime :=
  let scheduled : UTCTime := { day := now.day, hour := 17, minute := 0, second := 0, ms := 0 }
  if now.hour ≥ 17 then { scheduled with day := scheduled.day + 1 } else scheduled

/-- The document update performed by `approvePost` after its checks pass:
status `approved`, approver/timestamp, one appended history entry carrying
the previous status, and the scheduled-time defaulting rule. -/
def approveUpdated (now : UTCTime) (d : ApprovalData) (postData : Post) : Post :=
  let approvedBy := d.approvedBy.getD "admin"
  { postData with
    status := .approved
    approvedBy := some approvedBy
    approvedAt := some now
    approvalHistory := postData.approvalHistory ++
      [{ action := "approved", by_ := approvedBy, at_ := now,
         previousStatus := postData.status }]
    scheduledPostTime :=
      match d.scheduledPostTime with
      | some t => some t
      | none =>
        match postData.scheduledPostTime with
        | some t => some t
        | none => some (defaultScheduledTime now) }

/-- The `try { postImmediately } catch` block shared by `approvePost` and
`editPost`: on publish success the response carries the re-fetched
(posted) document with `immediatePost: true`; on failure or exception the
approved document is returned with `immediatePost: false` and the failure
recorded in `postingError`.  Returns the response and the stored document
after the step. -/
def runPublishStep (now : UTCTime) (b : StepBehavior) (updated : Post) :
    ApproveOk × Post :=
  match b with
  | .throws m =>
    ({ success := true, post := updated, immediatePost := false,
       postingError := some (.msg m) }, updated)
  | .runs cfg ig fb =>
    let pr := postImmediately now cfg ig fb updated
    if pr.1.success then
      ({ success := true, post := pr.2, immediatePost := true }, pr.2)
    else
      ({ success := true, post := updated, immediatePost := false,
         postingError :=
           match pr.1.error with
           | some m => some (.msg m)
           | none => pr.1.errors.map (fun l => ErrVal.errs l) }, pr.2)

/-- The message of the error thrown when a post in a non-approvable state
is approved; it names the current status. -/
def cannotApproveMsg (st : Status) : String :=
  let sname := st.name
  s!"Post cannot be approved (current status: {sname})"

/-- `ApprovalService.approvePost(postId, approvalData)`, acting on the
document stored under `postId` (`none` = missing).  Returns the response
(or classified thrown error) and the stored document after the call. -/
def approvePost (now : UTCTime) (b : StepBehavior) (postId : String)
    (d : ApprovalData) (doc? : Option Post) :
    Except ApprovalErr ApproveOk × Option Post :=
  match doc? with
  | none => (.error (.notFound s!"Post not found: {postId}"), none)
  | some postData =>
    if postData.status ≠ .pending ∧ postData.status ≠ .rejected then
      (.error (.invalidState (cannotApproveMsg postData.status)),
       some postData)
    else
      let updated := approveUpdated now d postData
      let ra := runPublishStep now b updated
      (.ok ra.1, some ra.2)

/-- The document update performed by `rejectPost` after its checks pass:
status `rejected`, rejecter/timestamp/reason, one appended history entry
carrying the previous status. -/
def rejectUpdated (now : UTCTime) (d : RejectData) (postData : Post) : Post :=
  let rejectedBy := d.rejectedBy.getD "admin"
  let reason := d.reason.getD "No reason provided"
  { postData with
    status := .rejected
    rejectedBy := some rejectedBy
    rejectedAt := some now
    rejectionReason := some reason
    approvalHistory := postData.approvalHistory ++
      [{ action := "rejected", by_ := rejectedBy, at_ := now,
         reason := some reason, previousStatus := postData.status }] }

/-- `ApprovalService.rejectPost(postId, rejectionData)`. -/
def rejectPost (now : UTCTime) (postId : String) (d : RejectData)
    (doc? : Option Post) : Except ApprovalErr RejectOk × Option Post :=
  match doc? with
  | none => (.error (.notFound s!"Post not found: {postId}"), none)
  | some postData =>
    if postData.status = .posted then
      (.error (.invalidState "Cannot reject a post that has already been posted"),
       some postData)
    else
      let updated := rejectUpdated now d postData
      (.ok { success := true, post := updated }, some updated)

/-- The `editHistory` entries produced by the diff loop of `editPost`: one entry
per update key whose current value is defined (`!== undefined`) and
strictly unequal (`!==`, i.e. `jsNeqB`: value inequality for primitives,
always-unequal references for arrays) to the new value. -/
def diffEntries (fields : List (String × JVal)) (updates : List (String × JVal))
    (editedBy : String) (ts : UTCTime) : List EditEntry :=
  updates.filterMap (fun kv =>
    match lookupField fields kv.1 with
    | some ov => if jsNeqB ov kv.2 then
        some { field := kv.1, oldValue := ov, newValue := kv.2,
               editedBy := editedBy, editedAt := ts }
      else none
    | none => none)

/-- The document update performed by `editPost` after its checks pass:
apply the field updates, extend `editHistory` with the diff, auto-approve,
append an `edited_and_approved` history entry listing the update keys, and
default the schedule when the post had none. -/
def editUpdated (now : UTCTime) (d : EditData) (postData : Post) : Post :=
  let editedBy := d.editedBy.getD "admin"
  { postData with
    fields := applyUpdates postData.fields d.updates
    status := .approved
    editHistory := postData.editHistory ++
      diffEntries postData.fields d.updates editedBy now
    approvedBy := some editedBy
    approvedAt := some now
    approvalHistory := postData.approvalHistory ++
      [{ action := "edited_and_approved", by_ := editedBy, at_ := now,
         editedFields := d.updates.map Prod.fst,
         previousStatus := postData.status }]
    scheduledPostTime :=
      match postData.scheduledPostTime with
      | some t => some t
      | none => some (defaultScheduledTime now) }

/-- `ApprovalService.editPost(postId, editData)`. -/
def editPost (now : UTCTime) (b : StepBehavior) (postId : String)
    (d : EditData) (doc? : Option Post) :
    Except ApprovalErr ApproveOk × Option Post :=
  if d.updates.isEmpty then
    (.error (.invalidArgument "No updates provided"), doc?)
  else
    match doc? with
    | none => (.error (.notFound s!"Post not found: {postId}"), none)
    | some postData =>
      if postData.status = .posted then
        (.error (.invalidState "Cannot edit a post that has already been posted"),
         some postData)
      else
        let updated := editUpdated now d postData
        let ra := runPublishStep now b updated
        (.ok ra.1, some ra.2)

/-! ## Eligibility query of the publishing sweep -/

/-- The sort key of the ascending orderBy on `scheduledPostTime`; eligible posts
always carry the field, so the default is never observed on them. -/
def schedKey (p : Post) : Nat :=
  (p.scheduledPostTime.map UTCTime.toMs).getD 0

/-- The order in which the sweep batch is returned. -/
def schedLE (a b : Post) : Prop := schedKey a ≤ schedKey b

instance : DecidableRel schedLE := fun a b => Nat.decLe (schedKey a) (schedKey b)

instance : IsTotal Post schedLE := ⟨fun a b => Nat.le_total (schedKey a) (schedKey b)⟩

instance : IsTrans Post schedLE := ⟨fun _ _ _ h h' => Nat.le_trans h h'⟩

/-- The Firestore predicate of `getApprovedPosts`:
status equals `approved` and `scheduledPostTime <= now`.  A document without
the `scheduledPostTime` field never matches a range filter on it. -/
def eligibleB (now : UTCTime) (p : Post) : Bool :=
  decide (p.status = .approved) &&
    (match p.scheduledPostTime with
     | some t => decide (t.toMs ≤ now.toMs)
     | none => false)

/-- `ApprovalService.getApprovedPosts({limit, beforeTime})`: all posts with
status `approved` and `scheduledPostTime ≤ now`, ordered by
`scheduledPostTime` ascending, at most `limit` of them. -/
def getApprovedPosts (now : UTCTime) (limit : Nat) (store : List Post) :
    List Post :=
  (((store.filter (eligibleB now)).insertionSort schedLE).take limit)

/-! ## Posting cron (`posting.run`) -/

/-- A store access performed by a sweep run, for stating which documents a
run touches. -/
inductive Effect
  | queryPosts
  | updatePost (id : String)
  | addLog (kind : String)
  | queryInteractions
  | updateInteraction (id : String)
  deriving DecidableEq, Repr

/-- Per-post behaviour of the sweep body: either
`metaService.postToBothPlatforms` returns (with the given per-platform
outcomes) or processing of that post throws. -/
inductive SweepStep
  | calls (ig fb : CallResult)
  | throws (msg : String)
  deriving DecidableEq, Repr

/-- The tally accumulated by the posting cron
(`results.success / partial / failed`; `mixed` models `partial`). -/
structure RunTally where
  succeeded : Nat := 0
  mixed : Nat := 0
  failed : Nat := 0
  deriving DecidableEq, Repr

/-- Which tally bucket one post fell into. -/
inductive StepKind
  | fullOk
  | mixedOk
  | wentWrong
  deriving DecidableEq, Repr

/-- The per-post loop body of the posting cron: publish to both
platforms; when at least one succeeded, update the document to `posted`
(with `postedAt`, `platforms`, `postingErrors`) and log success; when both
failed or an exception was thrown, only log and leave the document
untouched for retry. -/
def processSweepPost (now : UTCTime) (step : SweepStep) (post : Post) :
    StepKind × Post × List Effect :=
  match step with
  | .throws _ => (.wentWrong, post, [.addLog "posting_error"])
  | .calls ig fb =>
    let r := postToBothPlatforms ig fb
    if r.success then
      let updated : Post :=
        { post with
          status := .posted
          postedAt := some now
          platforms := some ⟨r.instagram, r.facebook⟩
          postingErrors := if r.errors.length > 0 then some r.errors else none }
      (if r.mixedSuccess then .mixedOk else .fullOk, updated,
       [.updatePost post.id, .addLog "posting_success"])
    else
      (.wentWrong, post, [.addLog "posting_error"])

/-- Add one processed post to the tally. -/
def tallyAdd (t : RunTally) : StepKind → RunTally
  | .fullOk => { t with succeeded := t.succeeded + 1 }
  | .mixedOk => { t with mixed := t.mixed + 1 }
  | .wentWrong => { t with failed := t.failed + 1 }

/-- The value returned by the `run` function of the posting cron. -/
structure PostingRunRes where
  success : Bool
  message : String
  posted : Option Nat := none
  results : Option RunTally := none
  deriving DecidableEq, Repr

/-- `posting.run()`: short-circuit with `posted: 0` and no store access
when the Meta API is not configured; otherwise query the eligible batch
and process each post, tallying outcomes. -/
def postingCronRun (now : UTCTime) (configured : Bool)
    (steps : Post → SweepStep) (store : List Post) :
    PostingRunRes × List Effect :=
  if configured then
    let approvedPosts := getApprovedPosts now 50 store
    if approvedPosts.isEmpty then
      ({ success := true, message := "No posts to publish", posted := some 0 },
       [.queryPosts])
    else
      let folded := approvedPosts.foldl
        (fun (acc : RunTally × List Effect) post =>
          let res := processSweepPost now (steps post) post
          (tallyAdd acc.1 res.1, acc.2 ++ res.2.2))
        (({} : RunTally), [Effect.queryPosts])
      ({ success := true,
         message := "Posted posts",
         results := some folded.1 }, folded.2)
  else
    ({ success := false, message := "Meta API not configured",
       posted := some 0 }, [])

/-! ## Interactions and the auto-reply cron -/

/-- The status values of an interaction document. -/
inductive InteractionStatus
  | pending
  | responded
  | failed
  deriving DecidableEq, Repr

/-- An interaction document (inbound comment or DM). -/
structure Interaction where
  id : String
  status : InteractionStatus
  platform : String
  type : String
  interactionId : String
  userId : Option String := none
  userMessage : String := ""
  category : String := ""
  botResponse : Option String := none
  respondedAt : Option UTCTime := none
  replyId : Option String := none
  lastError : Option String := none
  lastAttempt : Option UTCTime := none
  timestamp : UTCTime
  deriving DecidableEq, Repr

/-- The `timestamp` ascending order of the auto-reply batch. -/
def tsLE (a b : Interaction) : Prop := a.timestamp.toMs ≤ b.timestamp.toMs

instance : DecidableRel tsLE := fun a b => Nat.decLe a.timestamp.toMs b.timestamp.toMs

instance : IsTotal Interaction tsLE := ⟨fun a b => Nat.le_total a.timestamp.toMs b.timestamp.toMs⟩

instance : IsTrans Interaction tsLE := ⟨fun _ _ _ h h' => Nat.le_trans h h'⟩

/-- The query of the auto-reply sweep: interactions with status `pending`,
oldest first, at most 20. -/
def pendingInteractions (store : List Interaction) : List Interaction :=
  (((store.filter (fun i => decide (i.status = .pending))).insertionSort tsLE).take 20)

/-- `getFallbackResponse(category)`: the deterministic category-keyed
fallback used when AI generation fails. -/
def getFallbackResponse (category : String) : String :=
  let faq := "Thanks for reaching out! For more information, visit https://doors22.com/price/ or call us at (305) 394-9922. We\u0027re here to help!"
  if category = "price_inquiry" then
    "Hi! Our pricing varies based on size and customization. Get an instant quote here: https://doors22.com/price/ or call us at (305) 394-9922"
  else if category = "technical_question" then
    "Great question! For detailed information, visit https://doors22.com/price/ or call us at (305) 394-9922. Our team is happy to help!"
  else if category = "compliment" then
    "Thank you so much! We appreciate your kind words. Check out more of our work at https://doors22.com/"
  else
    faq

/-- Outcome of the AI response generation call. -/
inductive AiOutcome
  | ok (resp : String)
  | fails (msg : String)
  deriving DecidableEq, Repr

/-- The value returned by a Meta reply/DM call: comment replies carry
`replyId`, DMs carry `messageId`. -/
structure DispatchRes where
  success : Bool
  replyId : Option String := none
  messageId : Option String := none
  deriving DecidableEq, Repr

/-- Behaviour of the dispatch of one interaction: the Meta call returns a
value (`none` when no (type, platform) branch matched and `replyResult`
stays undefined), or processing throws. -/
inductive ReplyBehavior
  | returns (r : Option DispatchRes)
  | throws (msg : String)
  deriving DecidableEq, Repr

/-- `let response = interaction.botResponse; if (!response) { generate or
fall back }`: the reply text used for an interaction. -/
def computeResponse (ai : AiOutcome) (i : Interaction) : String :=
  match i.botResponse with
  | some r => if r = "" then freshResponse ai i.category else r
  | none => freshResponse ai i.category
where
  freshResponse (ai : AiOutcome) (category : String) : String :=
    match ai with
    | .ok resp => resp
    | .fails _ => getFallbackResponse category

/-- `replyResult.replyId || replyResult.messageId`. -/
def replyIdOf (r : DispatchRes) : Option String :=
  match r.replyId with
  | some x => if x = "" then r.messageId else some x
  | none => r.messageId

/-- Which tally bucket one interaction fell into. -/
inductive ReplyKind
  | repliedTo
  | wentWrong
  deriving DecidableEq, Repr

/-- The body of the auto-reply loop for one interaction: on dispatch
success update it to `responded` with the response text, timestamp and
platform message id; on dispatch failure or any exception update it to
`failed` with `lastError` and `lastAttempt`. -/
def processInteraction (now : UTCTime) (ai : AiOutcome) (b : ReplyBehavior)
    (i : Interaction) : ReplyKind × Interaction × List Effect :=
  match b with
  | .throws m =>
    (.wentWrong,
     { i with status := .failed, lastError := some m, lastAttempt := some now },
     [.updateInteraction i.id])
  | .returns r? =>
    let response := computeResponse ai i
    match r? with
    | some r =>
      if r.success then
        (.repliedTo,
         { i with
           status := .responded
           botResponse := some response
           respondedAt := some now
           replyId := replyIdOf r },
         [.updateInteraction i.id])
      else
        (.wentWrong,
         { i with
           status := .failed
           lastError := some "Reply API call failed"
           lastAttempt := some now },
         [.updateInteraction i.id])
    | none =>
      (.wentWrong,
       { i with
         status := .failed
         lastError := some "Reply API call failed"
         lastAttempt := some now },
       [.updateInteraction i.id])

/-- The tally of one auto-reply run. -/
structure ReplyTally where
  replied : Nat := 0
  failed : Nat := 0
  skipped : Nat := 0
  deriving DecidableEq, Repr

/-- The value returned by `autoReply.run`. -/
structure ReplyRunRes where
  success : Bool
  message : String
  replied : Option Nat := none
  results : Option ReplyTally := none
  deriving DecidableEq, Repr

/-- `autoReply.run()`: short-circuit with `replied: 0` and no store access
when the Meta API is not configured; otherwise query the pending batch and
process each interaction, then log the aggregate. -/
def autoReplyRun (now : UTCTime) (configured : Bool)
    (ai : Interaction → AiOutcome) (dispatch : Interaction → ReplyBehavior)
    (store : List Interaction) : ReplyRunRes × List Effect :=
  if configured then
    let pend := pendingInteractions store
    if pend.isEmpty then
      ({ success := true, message := "No pending interactions",
         replied := some 0 }, [.queryInteractions])
    else
      let folded := pend.foldl
        (fun (acc : ReplyTally × List Effect) i =>
          let res := processInteraction now (ai i) (dispatch i) i
          (match res.1 with
            | .repliedTo => { acc.1 with replied := acc.1.replied + 1 }
            | .wentWrong => { acc.1 with failed := acc.1.failed + 1 },
           acc.2 ++ res.2.2))
        (({} : ReplyTally), [Effect.queryInteractions])
      ({ success := true, message := "Replied to interactions",
         results := some folded.1 }, folded.2 ++ [.addLog "auto_reply"])
  else
    ({ success := false, message := "Meta API not configured",
       replied := some 0 }, [])

/-! ## Derived predicates and concrete sample inputs -/

/-- The status edges named by the specification:
pending→approved, pending→rejected, approved→rejected, approved→posted,
rejected→approved. -/
def allowedEdge (a b : Status) : Bool :=
  match a, b with
  | .pending, .approved => true
  | .pending, .rejected => true
  | .approved, .rejected => true
  | .approved, .posted => true
  | .rejected, .approved => true
  | _, _ => false

/-- "`status` only moves along the allowed edges": the before/after pair of
an operation is connected by a (possibly empty) chain of allowed edges. -/
def StatusPath (a b : Status) : Prop :=
  Relation.ReflTransGen (fun x y => allowedEdge x y = true) a b

/-- Does an update pair make the code append an `editHistory` entry?  The
field must be currently defined on the post and its value strictly
unequal (`jsNeqB`) to the new one. -/
def changedFieldB (fields : List (String × JVal)) (kv : String × JVal) : Bool :=
  match lookupField fields kv.1 with
  | some ov => jsNeqB ov kv.2
  | none => false

/-- The stricter spec reading of "differs from the current value": also
true when the field has no current value at all. -/
def differsFromCurrentB (fields : List (String × JVal)) (kv : String × JVal) : Bool :=
  decide (lookupField fields kv.1 ≠ some kv.2)

/-- Sample clock: 10:00 UTC on an arbitrary day. -/
def t10 : UTCTime := ⟨100, 10, 0, 0, 0⟩

/-- Sample pending post. -/
def pendingPost : Post :=
  { id := "p1", status := .pending, fields := [("caption", JVal.str "hello")] }

/-- Sample approved, scheduled post (eligible at `t10`). -/
def approvedPost : Post :=
  { pendingPost with
    id := "p2"
    status := .approved
    scheduledPostTime := some ⟨100, 9, 0, 0, 0⟩ }

/-- Sample already-published post. -/
def postedPost : Post := { pendingPost with id := "p3", status := .posted }

/-- An immediate-publish step that throws. -/
def stepThrow : StepBehavior := .throws "publish down"

/-- Default approval data (`{}` request body). -/
def dA0 : ApprovalData := {}

/-- Default rejection data. -/
def rd0 : RejectData := {}

/-- An edit introducing a field the post does not yet have. -/
def edCta : EditData := { updates := [("cta", JVal.str "Call now")] }

/-- An edit genuinely changing the caption of `pendingPost`. -/
def edCaption : EditData :=
  { editedBy := some "admin", updates := [("caption", JVal.str "updated")] }

/-- Sample pending interaction. -/
def sampleInteraction : Interaction :=
  { id := "i1", status := .pending, platform := "instagram", type := "comment",
    interactionId := "c1", category := "faq", timestamp := ⟨100, 8, 0, 0, 0⟩ }

/-- Sample failed interaction. -/
def failedInteraction : Interaction :=
  { sampleInteraction with id := "i2", status := .failed }

/-- Sample successful dispatch result. -/
def dispatchOk : DispatchRes := { success := true, replyId := some "r1" }

/-! ## Helper lemmas -/

theorem approveUpdated_status (now : UTCTime) (d : ApprovalData) (p : Post) :
    (approveUpdated now d p).status = .approved := rfl

theorem editUpdated_status (now : UTCTime) (d : EditData) (p : Post) :
    (editUpdated now d p).status = .approved := rfl

theorem postImmediately_after_status (now : UTCTime) (cfg : Bool)
    (ig fb : CallResult) (p : Post) :
    (postImmediately now cfg ig fb p).2.status = p.status ∨
      (postImmediately now cfg ig fb p).2.status = .posted := by
  cases cfg
  · left; rfl
  · by_cases h : (postToBothPlatforms ig fb).success = true
    · right; simp [postImmediately, h]
    · left; simp [postImmediately, h]

theorem postImmediately_preserves (now : UTCTime) (cfg : Bool)
    (ig fb : CallResult) (p : Post) :
    (postImmediately now cfg ig fb p).2.approvalHistory = p.approvalHistory ∧
      (postImmediately now cfg ig fb p).2.editHistory = p.editHistory ∧
      (postImmediately now cfg ig fb p).2.scheduledPostTime = p.scheduledPostTime := by
  cases cfg
  · exact ⟨rfl, rfl, rfl⟩
  · by_cases h : (postToBothPlatforms ig fb).success = true
    · simp [postImmediately, h]
    · simp [postImmediately, h]

theorem runPublishStep_runs_snd (now : UTCTime) (cfg : Bool)
    (ig fb : CallResult) (u : Post) :
    (runPublishStep now (.runs cfg ig fb) u).2 = (postImmediately now cfg ig fb u).2 := by
  by_cases h : (postImmediately now cfg ig fb u).1.success = true
  · simp [runPublishStep, h]
  · simp [runPublishStep, h]

theorem runPublishStep_after_status (now : UTCTime) (b : StepBehavior) (u : Post) :
    (runPublishStep now b u).2.status = u.status ∨
      (runPublishStep now b u).2.status = .posted := by
  cases b with
  | throws m => left; rfl
  | runs cfg ig fb =>
    rw [runPublishStep_runs_snd now cfg ig fb u]
    exact postImmediately_after_status now cfg ig fb u

theorem runPublishStep_preserves (now : UTCTime) (b : StepBehavior) (u : Post) :
    (runPublishStep now b u).2.approvalHistory = u.approvalHistory ∧
      (runPublishStep now b u).2.editHistory = u.editHistory ∧
      (runPublishStep now b u).2.scheduledPostTime = u.scheduledPostTime := by
  cases b with
  | throws m => exact ⟨rfl, rfl, rfl⟩
  | runs cfg ig fb =>
    rw [runPublishStep_runs_snd now cfg ig fb u]
    exact postImmediately_preserves now cfg ig fb u

theorem approvePost_ok_eq (now : UTCTime) (b : StepBehavior) (postId : String)
    (d : ApprovalData) (doc : Post)
    (h : doc.status = .pending ∨ doc.status = .rejected) :
    approvePost now b postId d (some doc) =
      (.ok (runPublishStep now b (approveUpdated now d doc)).1,
       some (runPublishStep now b (approveUpdated now d doc)).2) := by
  have hne : ¬(doc.status ≠ .pending ∧ doc.status ≠ .rejected) := by
    rcases h with h | h
    · intro hc; exact hc.1 h
    · intro hc; exact hc.2 h
  simp only [approvePost, if_neg hne]

theorem approvePost_invalid_eq (now : UTCTime) (b : StepBehavior) (postId : String)
    (d : ApprovalData) (doc : Post)
    (h1 : doc.status ≠ .pending) (h2 : doc.status ≠ .rejected) :
    approvePost now b postId d (some doc) =
      (.error (.invalidState (cannotApproveMsg doc.status)), some doc) := by
  simp only [approvePost, if_pos (And.intro h1 h2)]

theorem rejectPost_ok_eq (now : UTCTime) (postId : String) (d : RejectData)
    (doc : Post) (h : doc.status ≠ .posted) :
    rejectPost now postId d (some doc) =
      (.ok { success := true, post := rejectUpdated now d doc },
       some (rejectUpdated now d doc)) := by
  simp only [rejectPost, if_neg h]

theorem editPost_ok_eq (now : UTCTime) (b : StepBehavior) (postId : String)
    (d : EditData) (doc : Post) (h1 : d.updates ≠ []) (h2 : doc.status ≠ .posted) :
    editPost now b postId d (some doc) =
      (.ok (runPublishStep now b (editUpdated now d doc)).1,
       some (runPublishStep now b (editUpdated now d doc)).2) := by
  have he : d.updates.isEmpty = false := by
    cases hu : d.updates with
    | nil => exact absurd hu h1
    | cons a l => rfl
  simp only [editPost, he, Bool.false_eq_true, if_false, if_neg h2]

theorem editPost_posted_eq (now : UTCTime) (b : StepBehavior) (postId : String)
    (d : EditData) (doc : Post) (h1 : d.updates ≠ []) (h2 : doc.status = .posted) :
    editPost now b postId d (some doc) =
      (.error (.invalidState "Cannot edit a post that has already been posted"),
       some doc) := by
  have he : d.updates.isEmpty = false := by
    cases hu : d.updates with
    | nil => exact absurd hu h1
    | cons a l => rfl
  simp only [editPost, he, Bool.false_eq_true, if_false, if_pos h2]

theorem editPost_empty_eq (now : UTCTime) (b : StepBehavior) (postId : String)
    (d : EditData) (doc? : Option Post) (h : d.updates = []) :
    editPost now b postId d doc? =
      (.error (.invalidArgument "No updates provided"), doc?) := by
  have he : d.updates.isEmpty = true := by rw [h]; rfl
  simp only [editPost, he, if_true]

theorem rejectPost_posted_eq (now : UTCTime) (postId : String) (d : RejectData)
    (doc : Post) (h : doc.status = .posted) :
    rejectPost now postId d (some doc) =
      (.error (.invalidState "Cannot reject a post that has already been posted"),
       some doc) := by
  simp only [rejectPost, if_pos h]

theorem rejectUpdated_status (now : UTCTime) (d : RejectData) (p : Post) :
    (rejectUpdated now d p).status = .rejected := rfl

theorem statusPath_to_approved {a : Status} (h : a ≠ .posted) :
    StatusPath a .approved := by
  cases a with
  | pending => exact Relation.ReflTransGen.single rfl
  | approved => exact Relation.ReflTransGen.refl
  | rejected => exact Relation.ReflTransGen.single rfl
  | posted => exact absurd rfl h

theorem statusPath_to_posted {a : Status} (h : a ≠ .posted) :
    StatusPath a .posted :=
  Relation.ReflTransGen.tail (statusPath_to_approved h) rfl

theorem statusPath_to_rejected {a : Status} (h : a ≠ .posted) :
    StatusPath a .rejected := by
  cases a with
  | pending => exact Relation.ReflTransGen.single rfl
  | approved => exact Relation.ReflTransGen.single rfl
  | rejected => exact Relation.ReflTransGen.refl
  | posted => exact absurd rfl h

/-! ## Claim theorems -/

/-- Claim C1: under `approvePost`, `rejectPost`, `editPost` and the publish
step, the stored status only moves along the edges pending→approved,
pending→rejected, approved→rejected, approved→posted, rejected→approved;
and for a post whose status is `posted`, each of the three operations
fails with an InvalidState error and leaves the document unchanged. -/
theorem status_transition_legality :
    (∀ now b postId d (doc doc' : Post),
        (approvePost now b postId d (some doc)).2 = some doc' →
        StatusPath doc.status doc'.status) ∧
    (∀ now postId d (doc doc' : Post),
        (rejectPost now postId d (some doc)).2 = some doc' →
        StatusPath doc.status doc'.status) ∧
    (∀ now b postId d (doc doc' : Post),
        (editPost now b postId d (some doc)).2 = some doc' →
        StatusPath doc.status doc'.status) ∧
    (∀ now cfg ig fb (post : Post), post.status = .approved →
        StatusPath post.status (postImmediately now cfg ig fb post).2.status) ∧
    (∀ now step (post : Post), post.status = .approved →
        StatusPath post.status (processSweepPost now step post).2.1.status) ∧
    (∀ now b postId dA dR dE (doc : Post), doc.status = .posted →
        dE.updates ≠ [] →
        approvePost now b postId dA (some doc) =
          (.error (.invalidState (cannotApproveMsg .posted)), some doc) ∧
        rejectPost now postId dR (some doc) =
          (.error (.invalidState "Cannot reject a post that has already been posted"),
           some doc) ∧
        editPost now b postId dE (some doc) =
          (.error (.invalidState "Cannot edit a post that has already been posted"),
           some doc)) := by
  refine ⟨?_, ?_, ?_, ?_, ?_, ?_⟩
  · intro now b postId d doc doc' h
    by_cases hp : doc.status = .pending ∨ doc.status = .rejected
    · rw [approvePost_ok_eq now b postId d doc hp] at h
      have hd : (runPublishStep now b (approveUpdated now d doc)).2 = doc' :=
        Option.some.inj h
      have hne : doc.status ≠ .posted := by
        rcases hp with hp | hp <;> simp [hp]
      rcases runPublishStep_after_status now b (approveUpdated now d doc) with h1 | h1
      · rw [← hd, h1, approveUpdated_status]
        exact statusPath_to_approved hne
      · rw [← hd, h1]
        exact statusPath_to_posted hne
    · have h1 : doc.status ≠ .pending := fun hh => hp (Or.inl hh)
      have h2 : doc.status ≠ .rejected := fun hh => hp (Or.inr hh)
      rw [approvePost_invalid_eq now b postId d doc h1 h2] at h
      rw [← Option.some.inj h]
      exact Relation.ReflTransGen.refl
  · intro now postId d doc doc' h
    by_cases hp : doc.status = .posted
    · rw [rejectPost_posted_eq now postId d doc hp] at h
      rw [← Option.some.inj h]
      exact Relation.ReflTransGen.refl
    · rw [rejectPost_ok_eq now postId d doc hp] at h
      rw [← Option.some.inj h, rejectUpdated_status]
      exact statusPath_to_rejected hp
  · intro now b postId d doc doc' h
    by_cases he : d.updates = []
    · rw [editPost_empty_eq now b postId d (some doc) he] at h
      rw [← Option.some.inj h]
      exact Relation.ReflTransGen.refl
    · by_cases hp : doc.status = .posted
      · rw [editPost_posted_eq now b postId d doc he hp] at h
        rw [← Option.some.inj h]
        exact Relation.ReflTransGen.refl
      · rw [editPost_ok_eq now b postId d doc he hp] at h
        have hd : (runPublishStep now b (editUpdated now d doc)).2 = doc' :=
          Option.some.inj h
        rcases runPublishStep_after_status now b (editUpdated now d doc) with h1 | h1
        · rw [← hd, h1, editUpdated_status]
          exact statusPath_to_approved hp
        · rw [← hd, h1]
          exact statusPath_to_posted hp
  · intro now cfg ig fb post hst
    rcases postImmediately_after_status now cfg ig fb post with h1 | h1
    · rw [h1]
      exact Relation.ReflTransGen.refl
    · rw [h1, hst]
      exact Relation.ReflTransGen.single rfl
  · intro now step post hst
    cases step with
    | throws m =>
      exact Relation.ReflTransGen.refl
    | calls ig fb =>
      by_cases hs : (postToBothPlatforms ig fb).success = true
      · have h1 : (processSweepPost now (.calls ig fb) post).2.1.status = .posted := by
          simp [processSweepPost, hs]
        rw [h1, hst]
        exact Relation.ReflTransGen.single rfl
      · have h1 : (processSweepPost now (.calls ig fb) post).2.1 = post := by
          simp [processSweepPost, hs]
        rw [h1, hst]
        exact Relation.ReflTransGen.refl
  · intro now b postId dA dR dE doc hst hne
    have h1 : doc.status ≠ .pending := by rw [hst]; intro hc; cases hc
    have h2 : doc.status ≠ .rejected := by rw [hst]; intro hc; cases hc
    have h3 : doc.status ≠ .posted → False := fun hc => hc hst
    refine ⟨?_, ?_, ?_⟩
    · rw [approvePost_invalid_eq now b postId dA doc h1 h2, hst]
    · exact rejectPost_posted_eq now postId dR doc hst
    · exact editPost_posted_eq now b postId dE doc hne hst

/-- Witness for C1: a concrete pending post moved by `approvePost` (with a
throwing publish step) along an allowed path. -/
theorem status_transition_legality_witness :
    (approvePost t10 stepThrow "p1" dA0 (some pendingPost)).2 =
      some (runPublishStep t10 stepThrow (approveUpdated t10 dA0 pendingPost)).2 ∧
    StatusPath pendingPost.status
      (runPublishStep t10 stepThrow (approveUpdated t10 dA0 pendingPost)).2.status :=
  ⟨by rfl,
   status_transition_legality.1 t10 stepThrow "p1" dA0 pendingPost
     (runPublishStep t10 stepThrow (approveUpdated t10 dA0 pendingPost)).2 (by rfl)⟩

/-- Claim C10: approving a post whose status is already `approved` throws
an error naming the current status and leaves the document unchanged —
the precondition requires `pending` or `rejected`, so re-approval is an
error, not a no-op. -/
theorem reapprove_approved_fails :
    (∀ now b postId d (doc : Post), doc.status = .approved →
        approvePost now b postId d (some doc) =
          (.error (.invalidState (cannotApproveMsg .approved)), some doc)) ∧
    cannotApproveMsg .approved =
      "Post cannot be approved (current status: approved)" := by
  constructor
  · intro now b postId d doc h
    have h1 : doc.status ≠ .pending := by rw [h]; intro hc; cases hc
    have h2 : doc.status ≠ .rejected := by rw [h]; intro hc; cases hc
    rw [approvePost_invalid_eq now b postId d doc h1 h2, h]
  · rfl

/-- Witness for C10: the concrete approved sample post. -/
theorem reapprove_approved_fails_witness :
    approvedPost.status = .approved ∧
    approvePost t10 stepThrow "p2" dA0 (some approvedPost) =
      (.error (.invalidState (cannotApproveMsg .approved)), some approvedPost) :=
  ⟨rfl, reapprove_approved_fails.1 t10 stepThrow "p2" dA0 approvedPost rfl⟩

/-- Claim C3: an exception thrown by the immediate-publish step is caught
by `approvePost` and `editPost`: the operation still returns a success
result for the approved post, with `immediatePost = false` and the failure
message recorded in `postingError`. -/
theorem approval_swallows_publish_exception :
    (∀ now postId d (doc : Post) m,
        doc.status = .pending ∨ doc.status = .rejected →
        approvePost now (.throws m) postId d (some doc) =
          (.ok { success := true, post := approveUpdated now d doc,
                 immediatePost := false, postingError := some (.msg m) },
           some (approveUpdated now d doc))) ∧
    (∀ now postId d (doc : Post) m, d.updates ≠ [] → doc.status ≠ .posted →
        editPost now (.throws m) postId d (some doc) =
          (.ok { success := true, post := editUpdated now d doc,
                 immediatePost := false, postingError := some (.msg m) },
           some (editUpdated now d doc))) := by
  constructor
  · intro now postId d doc m h
    rw [approvePost_ok_eq now (.throws m) postId d doc h]
    rfl
  · intro now postId d doc m h1 h2
    rw [editPost_ok_eq now (.throws m) postId d doc h1 h2]
    rfl

/-- Witness for C3: approving the pending sample post while the publish
step throws. -/
theorem approval_swallows_publish_exception_witness :
    (pendingPost.status = .pending ∨ pendingPost.status = .rejected) ∧
    approvePost t10 (.throws "publish down") "p1" dA0 (some pendingPost) =
      (.ok { success := true, post := approveUpdated t10 dA0 pendingPost,
             immediatePost := false, postingError := some (.msg "publish down") },
       some (approveUpdated t10 dA0 pendingPost)) :=
  ⟨Or.inl rfl,
   approval_swallows_publish_exception.1 t10 "p1" dA0 pendingPost "publish down"
     (Or.inl rfl)⟩

/-- Claim C5: every successful transition of `approvePost`, `rejectPost`
and `editPost` appends exactly one `approvalHistory` entry recording the
previous status, leaving all earlier entries unchanged. -/
theorem approval_history_append_only :
    (∀ now b postId d (doc doc' : Post),
        doc.status = .pending ∨ doc.status = .rejected →
        (approvePost now b postId d (some doc)).2 = some doc' →
        ∃ e, doc'.approvalHistory = doc.approvalHistory ++ [e] ∧
          e.previousStatus = doc.status) ∧
    (∀ now postId d (doc doc' : Post), doc.status ≠ .posted →
        (rejectPost now postId d (some doc)).2 = some doc' →
        ∃ e, doc'.approvalHistory = doc.approvalHistory ++ [e] ∧
          e.previousStatus = doc.status) ∧
    (∀ now b postId d (doc doc' : Post), d.updates ≠ [] → doc.status ≠ .posted →
        (editPost now b postId d (some doc)).2 = some doc' →
        ∃ e, doc'.approvalHistory = doc.approvalHistory ++ [e] ∧
          e.previousStatus = doc.status) := by
  refine ⟨?_, ?_, ?_⟩
  · intro now b postId d doc doc' hs h
    rw [approvePost_ok_eq now b postId d doc hs] at h
    refine ⟨{ action := "approved", by_ := d.approvedBy.getD "admin", at_ := now,
              previousStatus := doc.status }, ?_, rfl⟩
    rw [← Option.some.inj h]
    exact (runPublishStep_preserves now b (approveUpdated now d doc)).1
  · intro now postId d doc doc' hs h
    rw [rejectPost_ok_eq now postId d doc hs] at h
    refine ⟨{ action := "rejected", by_ := d.rejectedBy.getD "admin", at_ := now,
              reason := some (d.reason.getD "No reason provided"),
              previousStatus := doc.status }, ?_, rfl⟩
    rw [← Option.some.inj h]
    rfl
  · intro now b postId d doc doc' h1 h2 h
    rw [editPost_ok_eq now b postId d doc h1 h2] at h
    refine ⟨{ action := "edited_and_approved", by_ := d.editedBy.getD "admin",
              at_ := now, editedFields := d.updates.map Prod.fst,
              previousStatus := doc.status }, ?_, rfl⟩
    rw [← Option.some.inj h]
    exact (runPublishStep_preserves now b (editUpdated now d doc)).1

/-- Witness for C5: approving the pending sample post appends one entry. -/
theorem approval_history_append_only_witness :
    ((pendingPost.status = .pending ∨ pendingPost.status = .rejected) ∧
     (approvePost t10 stepThrow "p1" dA0 (some pendingPost)).2 =
       some (runPublishStep t10 stepThrow (approveUpdated t10 dA0 pendingPost)).2) ∧
    (∃ e, (runPublishStep t10 stepThrow (approveUpdated t10 dA0 pendingPost)).2.approvalHistory =
        pendingPost.approvalHistory ++ [e] ∧ e.previousStatus = pendingPost.status) :=
  ⟨⟨Or.inl rfl, by rfl⟩,
   approval_history_append_only.1 t10 stepThrow "p1" dA0 pendingPost
     (runPublishStep t10 stepThrow (approveUpdated t10 dA0 pendingPost)).2
     (Or.inl rfl) (by rfl)⟩

/-- Claim C4: a caller-supplied scheduled time is used verbatim; a post
with no `scheduledPostTime` approved without one gets the same day at
17:00 UTC when approved before 17:00 UTC, and the next day at 17:00 UTC
when approved at or after 17:00 UTC — for both `approvePost` and
`editPost`. -/
theorem default_scheduling_rule :
    (∀ now b postId d (doc doc' : Post) t,
        d.scheduledPostTime = some t →
        doc.status = .pending ∨ doc.status = .rejected →
        (approvePost now b postId d (some doc)).2 = some doc' →
        doc'.scheduledPostTime = some t) ∧
    (∀ now b postId d (doc doc' : Post),
        d.scheduledPostTime = none → doc.scheduledPostTime = none →
        doc.status = .pending ∨ doc.status = .rejected →
        (approvePost now b postId d (some doc)).2 = some doc' →
        (now.hour < 17 → doc'.scheduledPostTime = some ⟨now.day, 17, 0, 0, 0⟩) ∧
        (17 ≤ now.hour → doc'.scheduledPostTime = some ⟨now.day + 1, 17, 0, 0, 0⟩)) ∧
    (∀ now b postId d (doc doc' : Post),
        d.updates ≠ [] → doc.status ≠ .posted → doc.scheduledPostTime = none →
        (editPost now b postId d (some doc)).2 = some doc' →
        (now.hour < 17 → doc'.scheduledPostTime = some ⟨now.day, 17, 0, 0, 0⟩) ∧
        (17 ≤ now.hour → doc'.scheduledPostTime = some ⟨now.day + 1, 17, 0, 0, 0⟩)) := by
  refine ⟨?_, ?_, ?_⟩
  · intro now b postId d doc doc' t ht hs h
    rw [approvePost_ok_eq now b postId d doc hs] at h
    rw [← Option.some.inj h,
      (runPublishStep_preserves now b (approveUpdated now d doc)).2.2]
    simp [approveUpdated, ht]
  · intro now b postId d doc doc' ht hd hs h
    rw [approvePost_ok_eq now b postId d doc hs] at h
    rw [← Option.some.inj h]
    have hp := (runPublishStep_preserves now b (approveUpdated now d doc)).2.2
    constructor
    · intro hlt
      rw [hp]
      simp [approveUpdated, ht, hd, defaultScheduledTime, Nat.not_le.mpr hlt]
    · intro hge
      rw [hp]
      simp [approveUpdated, ht, hd, defaultScheduledTime, hge]
  · intro now b postId d doc doc' h1 h2 hd h
    rw [editPost_ok_eq now b postId d doc h1 h2] at h
    rw [← Option.some.inj h]
    have hp := (runPublishStep_preserves now b (editUpdated now d doc)).2.2
    constructor
    · intro hlt
      rw [hp]
      simp [editUpdated, hd, defaultScheduledTime, Nat.not_le.mpr hlt]
    · intro hge
      rw [hp]
      simp [editUpdated, hd, defaultScheduledTime, hge]

/-- Witness for C4: approving the unscheduled pending sample post at
10:00 UTC schedules it the same day at 17:00 UTC. -/
theorem default_scheduling_rule_witness :
    (dA0.scheduledPostTime = none ∧ pendingPost.scheduledPostTime = none ∧
     (pendingPost.status = .pending ∨ pendingPost.status = .rejected) ∧
     (approvePost t10 stepThrow "p1" dA0 (some pendingPost)).2 =
       some (runPublishStep t10 stepThrow (approveUpdated t10 dA0 pendingPost)).2 ∧
     t10.hour < 17) ∧
    (runPublishStep t10 stepThrow (approveUpdated t10 dA0 pendingPost)).2.scheduledPostTime =
      some ⟨t10.day, 17, 0, 0, 0⟩ :=
  ⟨⟨rfl, rfl, Or.inl rfl, by rfl, by decide⟩,
   (default_scheduling_rule.2.1 t10 stepThrow "p1" dA0 pendingPost
     (runPublishStep t10 stepThrow (approveUpdated t10 dA0 pendingPost)).2
     rfl rfl (Or.inl rfl) (by rfl)).1 (by decide)⟩

/-- Claim C2: publishing an approved post over the two platforms — when
one platform succeeds and the other fails, the post becomes `posted` with
the succeeding platform result and the failing platform error recorded;
when both fail, the document is unchanged: status stays `approved` and
`postedAt` stays unset.  Stated for both the immediate path
(`postImmediately`) and the sweep path (`processSweepPost`). -/
theorem publish_partial_failure_semantics :
    (∀ now (post : Post) r m, post.status = .approved →
        (postImmediately now true (.ok r) (.err m) post).2.status = .posted ∧
        (postImmediately now true (.ok r) (.err m) post).2.platforms =
          some ⟨some r, none⟩ ∧
        (postImmediately now true (.ok r) (.err m) post).2.postingErrors =
          some [⟨"facebook", m⟩]) ∧
    (∀ now (post : Post) r m, post.status = .approved →
        (postImmediately now true (.err m) (.ok r) post).2.status = .posted ∧
        (postImmediately now true (.err m) (.ok r) post).2.platforms =
          some ⟨none, some r⟩ ∧
        (postImmediately now true (.err m) (.ok r) post).2.postingErrors =
          some [⟨"instagram", m⟩]) ∧
    (∀ now (post : Post) m1 m2, post.status = .approved → post.postedAt = none →
        (postImmediately now true (.err m1) (.err m2) post).2 = post ∧
        (postImmediately now true (.err m1) (.err m2) post).2.status = .approved ∧
        (postImmediately now true (.err m1) (.err m2) post).2.postedAt = none) ∧
    (∀ now (post : Post) r m, post.status = .approved →
        (processSweepPost now (.calls (.ok r) (.err m)) post).2.1.status = .posted ∧
        (processSweepPost now (.calls (.ok r) (.err m)) post).2.1.platforms =
          some ⟨some r, none⟩ ∧
        (processSweepPost now (.calls (.ok r) (.err m)) post).2.1.postingErrors =
          some [⟨"facebook", m⟩]) ∧
    (∀ now (post : Post) m1 m2, post.status = .approved → post.postedAt = none →
        (processSweepPost now (.calls (.err m1) (.err m2)) post).2.1 = post ∧
        (processSweepPost now (.calls (.err m1) (.err m2)) post).2.1.status = .approved ∧
        (processSweepPost now (.calls (.err m1) (.err m2)) post).2.1.postedAt = none) := by
  refine ⟨?_, ?_, ?_, ?_, ?_⟩
  · intro now post r m _
    exact ⟨rfl, rfl, rfl⟩
  · intro now post r m _
    exact ⟨rfl, rfl, rfl⟩
  · intro now post m1 m2 hst hpa
    exact ⟨rfl, hst, hpa⟩
  · intro now post r m _
    exact ⟨rfl, rfl, rfl⟩
  · intro now post m1 m2 hst hpa
    exact ⟨rfl, hst, hpa⟩

/-- Witness for C2: the approved sample post, Instagram succeeding and
Facebook failing. -/
theorem publish_partial_failure_semantics_witness :
    approvedPost.status = .approved ∧
    ((postImmediately t10 true (.ok "ig1") (.err "boom") approvedPost).2.status = .posted ∧
     (postImmediately t10 true (.ok "ig1") (.err "boom") approvedPost).2.platforms =
       some ⟨some "ig1", none⟩ ∧
     (postImmediately t10 true (.ok "ig1") (.err "boom") approvedPost).2.postingErrors =
       some [⟨"facebook", "boom"⟩]) :=
  ⟨rfl, publish_partial_failure_semantics.1 t10 approvedPost "ig1" "boom" rfl⟩

theorem eligibleB_iff (now : UTCTime) (p : Post) :
    eligibleB now p = true ↔
      p.status = .approved ∧ ∃ t, p.scheduledPostTime = some t ∧ t.toMs ≤ now.toMs := by
  unfold eligibleB
  cases h : p.scheduledPostTime with
  | none => simp [h]
  | some t => simp [h]

/-- Claim C7: every batch of the sweep eligibility query contains only
posts with status `approved` and a non-null `scheduledPostTime` at or
before the query time, ordered by `scheduledPostTime` ascending and
bounded by the batch limit; a post with status `posted` is never
returned. -/
theorem sweep_query_eligibility :
    (∀ now limit store (p : Post), p ∈ getApprovedPosts now limit store →
        p.status = .approved ∧
        ∃ t, p.scheduledPostTime = some t ∧ t.toMs ≤ now.toMs) ∧
    (∀ now limit store, List.Sorted schedLE (getApprovedPosts now limit store)) ∧
    (∀ now limit store, (getApprovedPosts now limit store).length ≤ limit) ∧
    (∀ now limit store (p : Post), p.status = .posted →
        p ∉ getApprovedPosts now limit store) := by
  have hmem : ∀ now limit store (p : Post), p ∈ getApprovedPosts now limit store →
      eligibleB now p = true := by
    intro now limit store p h
    have h1 : p ∈ (store.filter (eligibleB now)).insertionSort schedLE :=
      List.take_subset limit _ h
    have h2 : p ∈ store.filter (eligibleB now) :=
      (List.perm_insertionSort schedLE _).mem_iff.mp h1
    exact (List.mem_filter.mp h2).2
  refine ⟨?_, ?_, ?_, ?_⟩
  · intro now limit store p h
    exact (eligibleB_iff now p).mp (hmem now limit store p h)
  · intro now limit store
    exact List.Pairwise.sublist (List.take_sublist limit _)
      (List.sorted_insertionSort schedLE (store.filter (eligibleB now)))
  · intro now limit store
    simp only [getApprovedPosts, List.length_take]
    exact Nat.min_le_left _ _
  · intro now limit store p hp h
    have h2 := (eligibleB_iff now p).mp (hmem now limit store p h)
    rw [h2.1] at hp
    cases hp

/-- Witness for C7: a three-post store in which only the approved,
scheduled sample post is returned. -/
theorem sweep_query_eligibility_witness :
    approvedPost ∈ getApprovedPosts t10 50 [approvedPost, pendingPost, postedPost] ∧
    (approvedPost.status = .approved ∧
     ∃ t, approvedPost.scheduledPostTime = some t ∧ t.toMs ≤ t10.toMs) :=
  ⟨by decide,
   sweep_query_eligibility.1 t10 50 [approvedPost, pendingPost, postedPost]
     approvedPost (by decide)⟩

/-- Claim C8: with an unconfigured publisher/messaging adapter, the
posting sweep returns zero posted and the auto-reply sweep returns zero
replied, each with a configuration warning and without reading or writing
any document, no matter what the store holds. -/
theorem sweep_config_short_circuit :
    (∀ now steps store,
        postingCronRun now false steps store =
          ({ success := false, message := "Meta API not configured",
             posted := some 0 }, [])) ∧
    (∀ now ai dispatch store,
        autoReplyRun now false ai dispatch store =
          ({ success := false, message := "Meta API not configured",
             replied := some 0 }, [])) :=
  ⟨fun _ _ _ => rfl, fun _ _ _ _ => rfl⟩

/-- Claim C9: a pending interaction is moved to `responded` with response
text, timestamp and platform message id on dispatch success; to `failed`
with `lastError` and a retry timestamp on dispatch failure or exception;
and a `failed` interaction is never returned by the pending-only sweep
query again. -/
theorem auto_reply_outcomes :
    (∀ now ai (r : DispatchRes) (i : Interaction), r.success = true →
        processInteraction now ai (.returns (some r)) i =
          (.repliedTo,
           { i with
             status := .responded
             botResponse := some (computeResponse ai i)
             respondedAt := some now
             replyId := replyIdOf r },
           [.updateInteraction i.id])) ∧
    (∀ now ai (r : DispatchRes) (i : Interaction), r.success = false →
        processInteraction now ai (.returns (some r)) i =
          (.wentWrong,
           { i with
             status := .failed
             lastError := some "Reply API call failed"
             lastAttempt := some now },
           [.updateInteraction i.id])) ∧
    (∀ now ai (i : Interaction),
        processInteraction now ai (.returns none) i =
          (.wentWrong,
           { i with
             status := .failed
             lastError := some "Reply API call failed"
             lastAttempt := some now },
           [.updateInteraction i.id])) ∧
    (∀ now ai m (i : Interaction),
        processInteraction now ai (.throws m) i =
          (.wentWrong,
           { i with
             status := .failed
             lastError := some m
             lastAttempt := some now },
           [.updateInteraction i.id])) ∧
    (∀ store (i : Interaction), i.status = .failed →
        i ∉ pendingInteractions store) := by
  refine ⟨?_, ?_, ?_, ?_, ?_⟩
  · intro now ai r i h
    simp [processInteraction, h]
  · intro now ai r i h
    simp [processInteraction, h]
  · intro now ai i
    rfl
  · intro now ai m i
    rfl
  · intro store i hf h
    have h1 : i ∈ store.filter (fun j => decide (j.status = .pending)) :=
      (List.perm_insertionSort tsLE _).mem_iff.mp (List.take_subset 20 _ h)
    have h2 := (List.mem_filter.mp h1).2
    rw [hf] at h2
    exact absurd h2 (by decide)

/-- Witness for C9: the sample pending interaction dispatched
successfully. -/
theorem auto_reply_outcomes_witness :
    dispatchOk.success = true ∧
    processInteraction t10 (.ok "resp") (.returns (some dispatchOk)) sampleInteraction =
      (.repliedTo,
       { sampleInteraction with
         status := .responded
         botResponse := some (computeResponse (.ok "resp") sampleInteraction)
         respondedAt := some t10
         replyId := replyIdOf dispatchOk },
       [.updateInteraction sampleInteraction.id]) :=
  ⟨rfl, auto_reply_outcomes.1 t10 (.ok "resp") dispatchOk sampleInteraction rfl⟩

theorem diffEntries_length (fields updates : List (String × JVal)) (eb : String)
    (ts : UTCTime) :
    (diffEntries fields updates eb ts).length = updates.countP (changedFieldB fields) := by
  induction updates with
  | nil => rfl
  | cons kv rest ih =>
    cases h : lookupField fields kv.1 with
    | none =>
      simp [diffEntries, List.filterMap_cons, List.countP_cons, changedFieldB, h] at ih ⊢
      exact ih
    | some ov =>
      by_cases hv : jsNeqB ov kv.2 = true
      · simp [diffEntries, List.filterMap_cons, List.countP_cons, changedFieldB, h, hv] at ih ⊢
        exact ih
      · simp [diffEntries, List.filterMap_cons, List.countP_cons, changedFieldB, h, hv] at ih ⊢
        exact ih

theorem diffEntries_mem {fields updates : List (String × JVal)} {eb : String}
    {ts : UTCTime} {e : EditEntry} (h : e ∈ diffEntries fields updates eb ts) :
    lookupField fields e.field = some e.oldValue ∧
      jsNeqB e.oldValue e.newValue = true ∧
      (e.field, e.newValue) ∈ updates ∧ e.editedBy = eb ∧ e.editedAt = ts := by
  rw [diffEntries, List.mem_filterMap] at h
  obtain ⟨kv, hkv, hf⟩ := h
  split at hf
  · rename_i ov hl
    split at hf
    · rename_i hv
      have he := (Option.some.inj hf).symm
      subst he
      exact ⟨hl, hv, Prod.mk.eta ▸ hkv, rfl, rfl⟩
    · cases hf
  · cases hf

/-- Claim C6 counterexample: `pendingPost` has no `cta` field, so the
update of `edCta` sets a value that differs from the current value, yet
the (successful) edit appends zero `editHistory` entries — the code only
diffs fields that are already defined on the post. -/
theorem edit_diff_claim_counterexample :
    differsFromCurrentB pendingPost.fields ("cta", JVal.str "Call now") = true ∧
    edCta.updates = [("cta", JVal.str "Call now")] ∧
    (editPost t10 stepThrow "p1" edCta (some pendingPost)).1.isOk = true ∧
    ((editPost t10 stepThrow "p1" edCta (some pendingPost)).2.map
        (fun p => p.editHistory.length)) = some 0 ∧
    pendingPost.editHistory.length = 0 := by
  decide

/-- Claim C6 (amended): `editPost` appends one `editHistory` entry,
recording the current value as `oldValue` and the supplied value as
`newValue`, per update field that is already defined on the post and
whose new value is strictly unequal (JS `!==`) to the current one.  For
string, number and boolean fields this is value inequality: re-supplying
the value the field already holds appends zero entries and a genuinely
different value appends exactly one.  For array-valued fields (hashtags)
`!==` compares always-distinct references, so an update to a defined
array field appends one entry even when the contents are identical.
Fields not yet defined on the post are updated without an entry. -/
theorem edit_diff_minimality_amended :
    (∀ now b postId d (doc doc' : Post), d.updates ≠ [] → doc.status ≠ .posted →
        (editPost now b postId d (some doc)).2 = some doc' →
        ∃ newEntries,
          doc'.editHistory = doc.editHistory ++ newEntries ∧
          newEntries.length = d.updates.countP (changedFieldB doc.fields) ∧
          ∀ e ∈ newEntries,
            lookupField doc.fields e.field = some e.oldValue ∧
            jsNeqB e.oldValue e.newValue = true ∧
            (e.field, e.newValue) ∈ d.updates ∧
            e.editedBy = d.editedBy.getD "admin" ∧ e.editedAt = now) ∧
    (∀ now b postId eb f v (doc doc' : Post), doc.status ≠ .posted →
        lookupField doc.fields f = some v → v.isArr = false →
        (editPost now b postId ⟨eb, [(f, v)]⟩ (some doc)).2 = some doc' →
        doc'.editHistory = doc.editHistory) ∧
    (∀ now b postId eb f v nv (doc doc' : Post), doc.status ≠ .posted →
        lookupField doc.fields f = some v → jsNeqB v nv = true →
        (editPost now b postId ⟨eb, [(f, nv)]⟩ (some doc)).2 = some doc' →
        doc'.editHistory = doc.editHistory ++
          [{ field := f, oldValue := v, newValue := nv,
             editedBy := eb.getD "admin", editedAt := now }]) ∧
    (∀ now b postId eb f xs (doc doc' : Post), doc.status ≠ .posted →
        lookupField doc.fields f = some (.arr xs) →
        (editPost now b postId ⟨eb, [(f, .arr xs)]⟩ (some doc)).2 = some doc' →
        doc'.editHistory = doc.editHistory ++
          [{ field := f, oldValue := .arr xs, newValue := .arr xs,
             editedBy := eb.getD "admin", editedAt := now }]) := by
  refine ⟨?_, ?_, ?_, ?_⟩
  · intro now b postId d doc doc' h1 h2 h
    rw [editPost_ok_eq now b postId d doc h1 h2] at h
    refine ⟨diffEntries doc.fields d.updates (d.editedBy.getD "admin") now, ?_, ?_, ?_⟩
    · rw [← Option.some.inj h]
      exact (runPublishStep_preserves now b (editUpdated now d doc)).2.1
    · exact diffEntries_length doc.fields d.updates (d.editedBy.getD "admin") now
    · intro e he
      exact diffEntries_mem he
  · intro now b postId eb f v doc doc' h2 hv harr h
    rw [editPost_ok_eq now b postId ⟨eb, [(f, v)]⟩ doc (List.cons_ne_nil _ _) h2] at h
    rw [← Option.some.inj h,
      (runPublishStep_preserves now b (editUpdated now ⟨eb, [(f, v)]⟩ doc)).2.1]
    have hvv : jsNeqB v v = false := by simp [jsNeqB, harr]
    simp [editUpdated, diffEntries, hv, hvv]
  · intro now b postId eb f v nv doc doc' h2 hv hne h
    rw [editPost_ok_eq now b postId ⟨eb, [(f, nv)]⟩ doc (List.cons_ne_nil _ _) h2] at h
    rw [← Option.some.inj h,
      (runPublishStep_preserves now b (editUpdated now ⟨eb, [(f, nv)]⟩ doc)).2.1]
    simp [editUpdated, diffEntries, hv, hne]
  · intro now b postId eb f xs doc doc' h2 hv h
    rw [editPost_ok_eq now b postId ⟨eb, [(f, .arr xs)]⟩ doc (List.cons_ne_nil _ _) h2] at h
    rw [← Option.some.inj h,
      (runPublishStep_preserves now b (editUpdated now ⟨eb, [(f, .arr xs)]⟩ doc)).2.1]
    have hne : jsNeqB (.arr xs) (.arr xs) = true := by simp [jsNeqB, JVal.isArr]
    simp [editUpdated, diffEntries, hv, hne]

/-- Witness for the amended C6: changing the caption of the pending
sample post appends exactly one entry with the correct old and new
values. -/
theorem edit_diff_minimality_amended_witness :
    (pendingPost.status ≠ .posted ∧
     lookupField pendingPost.fields "caption" = some (JVal.str "hello") ∧
     jsNeqB (JVal.str "hello") (JVal.str "updated") = true ∧
     (editPost t10 stepThrow "p1" edCaption (some pendingPost)).2 =
       some (runPublishStep t10 stepThrow (editUpdated t10 edCaption pendingPost)).2) ∧
    (runPublishStep t10 stepThrow (editUpdated t10 edCaption pendingPost)).2.editHistory =
      pendingPost.editHistory ++
        [{ field := "caption", oldValue := JVal.str "hello",
           newValue := JVal.str "updated",
           editedBy := (some "admin").getD "admin", editedAt := t10 }] :=
  ⟨⟨by decide, by decide, by decide, by rfl⟩,
   edit_diff_minimality_amended.2.2.1 t10 stepThrow "p1" (some "admin") "caption"
     (JVal.str "hello") (JVal.str "updated") pendingPost
     (runPublishStep t10 stepThrow (editUpdated t10 edCaption pendingPost)).2
     (by decide) (by decide) (by decide) (by rfl)⟩

end Doors22
